import Mathlib

/-!
# Verification of the fund-dashboard computation engine

Shallow embedding of the computational core of the dashboard:

* the AUM / fee value parsers and the revenue calculator
  (`src/pages/1_Fund_Analysis.py`, duplicated in `src/pages/2_Funds_Comparison.py`),
* the return-series builder and rebasing logic (`src/pages/1_Fund_Analysis.py`),
* the period-metrics calculator (summary-metrics loop of
  `src/pages/1_Fund_Analysis.py`, `calculate_fund_metrics` of
  `src/pages/2_Funds_Comparison.py`),
* the bonus-allocation aggregator (`src/pages/3_Task.py`).

Money amounts and parsed values are modelled as `ℚ` where the code only uses
field arithmetic, and as `ℝ` where square roots / real exponentiation occur.
A Python `None` result and a pandas `NaN` cell are modelled as `Option.none`.
String processing is modelled over `List Char` (structural recursion) so the
parsers stay kernel-computable.
-/

namespace FundDash

/-! ## Value parsers (`parse_aum`, `parse_fees`, `calculate_revenue`) -/

/-- ASCII whitespace stripped by Python's `str.strip()` / `float()`. -/
def isSpaceChar (c : Char) : Bool :=
  c == ' ' || c == '\t' || c == '\n' || c == '\r'

/-- `str.strip()`: drop leading and trailing whitespace. -/
def trimChars (l : List Char) : List Char :=
  ((l.dropWhile isSpaceChar).reverse.dropWhile isSpaceChar).reverse

/-- `str.upper()` on the ASCII characters occurring here. -/
def upChar (c : Char) : Char :=
  if 'a' ≤ c && c ≤ 'z' then Char.ofNat (c.toNat - 32) else c

/-- Value of a list of decimal digit characters read left to right. -/
def digitsToNat (l : List Char) : Nat :=
  l.foldl (fun a c => 10 * a + (c.toNat - 48)) 0

/-- Split a character list at every `'.'` (like `str.split('.')`). -/
def splitDots : List Char → List (List Char)
  | [] => [[]]
  | c :: cs =>
    let r := splitDots cs
    if c == '.' then [] :: r
    else (c :: r.headI) :: r.tail

/-- Models Python `float()` on the plain decimal literals that occur in this
program: optional surrounding whitespace, an optional sign, digit characters
with at most one decimal point and at least one digit.  (Exponent, `inf` and
`nan` spellings never arise from the digit/dot extraction used by the callers
and are not modelled.)  `none` models a raised `ValueError`. -/
def parseDecimalChars (l0 : List Char) : Option ℚ :=
  let t := trimChars l0
  let su : ℚ × List Char :=
    match t with
    | '-' :: rest => (-1, rest)
    | '+' :: rest => (1, rest)
    | _ => (1, t)
  let u := su.2
  if u.all (fun c => c.isDigit || c == '.') then
    match splitDots u with
    | [i] => if i ≠ [] then some (su.1 * (digitsToNat i : ℚ)) else none
    | [i, f] =>
        if i ≠ [] ∨ f ≠ [] then
          some (su.1 * ((digitsToNat i : ℚ) + (digitsToNat f : ℚ) / 10 ^ f.length))
        else none
    | _ => none
  else none

/-- `re.sub(r'[^\d.]', '', s)`: keep only digit characters and dots. -/
def stripNonDigitDot (l : List Char) : List Char :=
  l.filter (fun c => c.isDigit || c == '.')

/-- `parse_aum` from `src/pages/1_Fund_Analysis.py` lines 8–38 (identical copy
in `src/pages/2_Funds_Comparison.py` lines 10–40), on string input.  The code
first tests the `'M'` suffix, then `'B'`, then `'K'`, on the trimmed
upper-cased string; on a hit it extracts the digit/dot characters, requires
them non-empty, parses and scales.  If the extraction is empty the `if` body
is skipped and the Python function falls through returning `None`.  With no
suffix the original value is parsed directly.  Any parse failure yields
`None`. -/
def parse_aum (s : String) : Option ℚ :=
  if s = "N/A" ∨ s = "" then none
  else
    let u := (trimChars s.toList).map upChar
    if u.contains 'M' then
      let n := stripNonDigitDot u
      if n ≠ [] then (parseDecimalChars n).map (· * 1000000) else none
    else if u.contains 'B' then
      let n := stripNonDigitDot u
      if n ≠ [] then (parseDecimalChars n).map (· * 1000000000) else none
    else if u.contains 'K' then
      let n := stripNonDigitDot u
      if n ≠ [] then (parseDecimalChars n).map (· * 1000) else none
    else parseDecimalChars s.toList

/-- `parse_fees` from `src/pages/1_Fund_Analysis.py` lines 41–53: strip
whitespace, drop every percent sign, turn decimal commas into points, parse,
divide by 100 (store as a fraction). -/
def parse_fees (s : String) : Option ℚ :=
  if s = "N/A" ∨ s = "" then none
  else
    (parseDecimalChars (((trimChars s.toList).filter (fun c => c != '%')).map
      (fun c => if c == ',' then '.' else c))).map (· / 100)

/-- `calculate_revenue` from `src/pages/1_Fund_Analysis.py` lines 56–63:
revenue = AUM × fees when both parse, otherwise `None`; the function is total
(never raises to its caller). -/
def calculate_revenue (a f : String) : Option ℚ :=
  match parse_aum a, parse_fees f with
  | some x, some y => some (x * y)
  | _, _ => none

/-! ## Allocation aggregator (`src/pages/3_Task.py`) -/

/-- One row of the edited allocation table after the join with the fund
reference table: the bonus amount and the joined numeric attributes.  An
attribute that is missing or fails `pd.to_numeric(errors='coerce')` is
`none`. -/
structure AllocEntry where
  bonus : ℚ
  escore : Option ℚ
  age : Option ℚ

/-- `num_managers_with_bonus = (edited_df['Bonus (€)'] > 0).sum()`
(`src/pages/3_Task.py` line 163). -/
def num_managers_with_bonus (l : List AllocEntry) : Nat :=
  l.countP (fun e => decide (0 < e.bonus))

/-- The bonus-weighted average of a numeric attribute, as computed at
`src/pages/3_Task.py` lines 222–232 (E Score) and 252–262 (age): restrict to
entries with a strictly positive bonus and a parseable attribute, then
`(attr * bonus).sum() / total_bonus if total_bonus > 0 else 0`. -/
def weightedAvg (attr : AllocEntry → Option ℚ) (l : List AllocEntry) : ℚ :=
  let sel := l.filter (fun e => decide (0 < e.bonus) && (attr e).isSome)
  let total := (sel.map (fun e => e.bonus)).sum
  if 0 < total then (sel.map (fun e => (attr e).getD 0 * e.bonus)).sum / total
  else 0

/-- `weighted_avg_esg` (`src/pages/3_Task.py` line 232). -/
def weighted_avg_esg (l : List AllocEntry) : ℚ :=
  weightedAvg AllocEntry.escore l

/-- `weighted_avg_age` (`src/pages/3_Task.py` line 262). -/
def weighted_avg_age (l : List AllocEntry) : ℚ :=
  weightedAvg AllocEntry.age l

/-- The filter selecting positive-bonus entries with a parseable attribute is
empty when every bonus is zero. -/
theorem weightedAvg_eq_zero_of_all_zero (attr : AllocEntry → Option ℚ)
    (l : List AllocEntry) (h : ∀ e ∈ l, e.bonus = 0) :
    weightedAvg attr l = 0 := by
  unfold weightedAvg
  have hsel : l.filter (fun e => decide (0 < e.bonus) && (attr e).isSome) = [] := by
    rw [List.filter_eq_nil_iff]
    intro e he
    simp [h e he]
  rw [hsel]
  simp

/-! ## Return series and period metrics -/

/-- A (date, NAV, benchmark) sample of a fund's series, after the date-range
filter and the ascending sort.  Dates are modelled as integer day ordinals;
only their ordering matters to the metrics. -/
structure Point where
  date : ℤ
  nav : ℝ
  bench : ℝ

/-- A row of `calc_df` (`src/pages/1_Fund_Analysis.py` lines 196–203): the
sample together with the `pct_change` daily-return cells `fund_returns` and
`bench_returns`; the first row's return is `NaN`, modelled as `none`. -/
structure Row where
  date : ℤ
  nav : ℝ
  bench : ℝ
  fundRet : Option ℝ
  benchRet : Option ℝ

instance : Inhabited Row := ⟨⟨0, 0, 0, none, none⟩⟩

/-- Rows after the first: each carries `value[t]/value[t-1] - 1` computed from
the immediately preceding row of the **full** (date-range-filtered) series. -/
noncomputable def calcRowsAux (prev : Point) : List Point → List Row
  | [] => []
  | p :: ps =>
      ⟨p.date, p.nav, p.bench, some (p.nav / prev.nav - 1),
        some (p.bench / prev.bench - 1)⟩ :: calcRowsAux p ps

/-- `calc_df` with its return columns: the `pct_change` of the `nav` and
`bench` columns is taken over the whole series *before* any window filtering
(`src/pages/1_Fund_Analysis.py` lines 200–203; `src/pages/2_Funds_Comparison.py`
lines 77–80). -/
noncomputable def calcRows : List Point → List Row
  | [] => []
  | p :: ps => ⟨p.date, p.nav, p.bench, none, none⟩ :: calcRowsAux p ps

/-- `period_df = calc_df[calc_df['date'] >= start_date]`
(`src/pages/1_Fund_Analysis.py` line 219). -/
noncomputable def windowRows (anchor : ℤ) (pts : List Point) : List Row :=
  (calcRows pts).filter (fun r => decide (anchor ≤ r.date))

/-- The non-`NaN` entries of a float column, in order (pandas `skipna`). -/
def validList : List (Option ℝ) → List ℝ :=
  List.filterMap id

/-- The fund daily returns that enter a window's statistics: the
`fund_returns` cells of the filtered rows, `NaN`s skipped. -/
noncomputable def windowFundReturns (anchor : ℤ) (pts : List Point) : List ℝ :=
  validList ((windowRows anchor pts).map Row.fundRet)

/-- The benchmark daily returns that enter a window's statistics. -/
noncomputable def windowBenchReturns (anchor : ℤ) (pts : List Point) : List ℝ :=
  validList ((windowRows anchor pts).map Row.benchRet)

/-- Arithmetic mean of a list (0 for the empty list, as `0 / 0 = 0`). -/
noncomputable def listMean (l : List ℝ) : ℝ := l.sum / l.length

/-- Sample variance with `ddof = 1`. -/
noncomputable def sampleVar (l : List ℝ) : ℝ :=
  ((l.map (fun x => (x - listMean l) ^ 2)).sum) / ((l.length : ℝ) - 1)

/-- pandas `Series.std()` (default `ddof = 1`, `skipna = True`) on the valid
entries: `NaN` — modelled `none` — when fewer than two observations remain. -/
noncomputable def sampleStd (l : List ℝ) : Option ℝ :=
  if l.length < 2 then none else some (Real.sqrt (sampleVar l))

/-- `years` for a window of `n` rows (`src/pages/1_Fund_Analysis.py` lines
234–239; identical in `src/pages/2_Funds_Comparison.py` lines 98–103):
`years = n / 252.0`, replaced by `1.0` only under the guard `years <= 0`. -/
noncomputable def yearsFor (n : ℕ) : ℝ :=
  if (n : ℝ) / 252 ≤ 0 then 1 else (n : ℝ) / 252

/-- Annualized volatility of one return column over a window:
`std * sqrt(252) * 100` (`src/pages/1_Fund_Analysis.py` lines 242–243);
`NaN` propagates through the float product. -/
noncomputable def volOf (ret : Row → Option ℝ) (anchor : ℤ) (pts : List Point) :
    Option ℝ :=
  (sampleStd (validList ((windowRows anchor pts).map ret))).map
    (fun sd => sd * Real.sqrt 252 * 100)

/-- Window performance of one value column (`src/pages/1_Fund_Analysis.py`
lines 245–264): total return for the YTD-labelled window, annualized through
`(last/first) ** (1/years)` otherwise; an explicit fallback to `0` when the
window's first or last value is not strictly positive. -/
noncomputable def perfOf (total : Bool) (value : Row → ℝ) (anchor : ℤ)
    (pts : List Point) : ℝ :=
  let vals := (windowRows anchor pts).map value
  if 0 < vals.headI ∧ 0 < vals.getLastI then
    if total then (vals.getLastI / vals.headI - 1) * 100
    else ((vals.getLastI / vals.headI) ^ ((1 : ℝ) / yearsFor vals.length) - 1) * 100
  else 0

/-- `fund_perf_annualized` (`src/pages/1_Fund_Analysis.py` lines 270–274):
the annualized fund return recomputed for the Sharpe ratio, with the same
non-positive-basis fallback to 0. -/
noncomputable def annualizedFundPerf (anchor : ℤ) (pts : List Point) : ℝ :=
  perfOf false Row.nav anchor pts

/-- `tracking_error = fund_vol - bench_vol`
(`src/pages/1_Fund_Analysis.py` lines 266–267); the float subtraction
propagates `NaN`. -/
noncomputable def trackingErrorOf (anchor : ℤ) (pts : List Point) : Option ℝ :=
  match volOf Row.fundRet anchor pts, volOf Row.benchRet anchor pts with
  | some a, some b => some (a - b)
  | _, _ => none

/-- Sharpe ratio (`src/pages/1_Fund_Analysis.py` lines 276–279):
`(annualized_perf/100) / (fund_vol/100)` when `fund_vol > 0`, else `0`.  A
`NaN` volatility fails the Python comparison `fund_vol > 0`, so it also takes
the `0` branch. -/
noncomputable def sharpeOf (anchor : ℤ) (pts : List Point) : Option ℝ :=
  match volOf Row.fundRet anchor pts with
  | some v =>
      if 0 < v then some ((annualizedFundPerf anchor pts / 100) / (v / 100))
      else some 0
  | none => some 0

/-- One window's row of the summary table. -/
structure PeriodMetrics where
  fundVol : Option ℝ
  benchVol : Option ℝ
  fundPerf : Option ℝ
  benchPerf : Option ℝ
  trackingError : Option ℝ
  sharpe : Option ℝ

/-- One iteration of the summary-metrics loop
(`src/pages/1_Fund_Analysis.py` lines 218–289): the whole row is `N/A` (outer
`none`) when fewer than 2 rows fall in the window; a numeric cell that is
float `NaN` is an inner `none`. -/
noncomputable def metricsForWindow (isYTD : Bool) (anchor : ℤ)
    (pts : List Point) : Option PeriodMetrics :=
  if (windowRows anchor pts).length < 2 then none
  else some
    { fundVol := volOf Row.fundRet anchor pts
      benchVol := volOf Row.benchRet anchor pts
      fundPerf := some (perfOf isYTD Row.nav anchor pts)
      benchPerf := some (perfOf isYTD Row.bench anchor pts)
      trackingError := trackingErrorOf anchor pts
      sharpe := sharpeOf anchor pts }

/-- The dates of the return-augmented rows are the dates of the samples. -/
theorem calcRowsAux_map_date (prev : Point) (ps : List Point) :
    (calcRowsAux prev ps).map Row.date = ps.map Point.date := by
  induction ps generalizing prev with
  | nil => rfl
  | cons p ps ih => simp [calcRowsAux, ih]

/-- `calcRows` preserves the date column. -/
theorem calcRows_map_date (pts : List Point) :
    (calcRows pts).map Row.date = pts.map Point.date := by
  cases pts with
  | nil => rfl
  | cons p ps => simp [calcRows, calcRowsAux_map_date]

/-- Window filtering keeps as many rows of `calc_df` as it keeps samples. -/
theorem calcRowsAux_filter_length (anchor : ℤ) (prev : Point) (ps : List Point) :
    ((calcRowsAux prev ps).filter (fun r => decide (anchor ≤ r.date))).length =
      (ps.filter (fun p => decide (anchor ≤ p.date))).length := by
  induction ps generalizing prev with
  | nil => rfl
  | cons p ps ih =>
    simp only [calcRowsAux, List.filter_cons]
    by_cases h : anchor ≤ p.date
    · simp [h, ih]
    · simp [h, ih]

/-- The number of rows in a window equals the number of series points whose
date is on or after the anchor. -/
theorem windowRows_length (anchor : ℤ) (pts : List Point) :
    (windowRows anchor pts).length =
      (pts.filter (fun p => decide (anchor ≤ p.date))).length := by
  cases pts with
  | nil => rfl
  | cons p ps =>
    simp only [windowRows, calcRows, List.filter_cons]
    by_cases h : anchor ≤ p.date
    · simp [h, calcRowsAux_filter_length]
    · simp [h, calcRowsAux_filter_length]

/-- A two-point series (dates 0 and 1, both values doubling). -/
noncomputable def twoPts : List Point := [⟨0, 1, 1⟩, ⟨1, 2, 2⟩]

/-- **C1 (counterexample).** The claim asserts
`years = max(point_count / 252, 1.0)`.  The code computes
`years = trading_days / 252.0` and resets it to `1.0` only when
`years <= 0` (`src/pages/1_Fund_Analysis.py` lines 234–239), a guard that a
window of 2 points never triggers: for the 2-row window over `twoPts`,
`years = 2/252 = 1/126`, whereas `max(2/252, 1.0) = 1.0`. -/
theorem years_not_floored_cex :
    (windowRows 0 twoPts).length = 2 ∧
    yearsFor (windowRows 0 twoPts).length ≠
      max (((windowRows 0 twoPts).length : ℝ) / 252) 1 := by
  have hlen : (windowRows 0 twoPts).length = 2 := by
    simp +decide [windowRows, calcRows, calcRowsAux, twoPts]
  refine ⟨hlen, ?_⟩
  rw [hlen, yearsFor, if_neg (by norm_num)]
  push_cast
  rw [max_eq_right (by norm_num : (2 : ℝ) / 252 ≤ 1)]
  norm_num

/-- **C1 (amended).** For every window retaining at least 2 points the
elapsed-years figure is exactly `point_count / 252` — the `years <= 0`
fallback never fires — and therefore every window with fewer than 252 points
is annualized with `years < 1.0`, not with `years = 1.0`. -/
theorem years_is_count_over_252 (anchor : ℤ) (pts : List Point)
    (h : 2 ≤ (windowRows anchor pts).length) :
    yearsFor (windowRows anchor pts).length =
      ((windowRows anchor pts).length : ℝ) / 252 ∧
    ((windowRows anchor pts).length < 252 →
      yearsFor (windowRows anchor pts).length < 1) := by
  set n := (windowRows anchor pts).length with hn
  have hpos : (0 : ℝ) < (n : ℝ) / 252 := by
    have : (0 : ℝ) < (n : ℝ) := by exact_mod_cast Nat.lt_of_lt_of_le Nat.zero_lt_two h
    positivity
  have heq : yearsFor n = (n : ℝ) / 252 := by
    rw [yearsFor, if_neg (not_le.mpr hpos)]
  refine ⟨heq, fun hlt => ?_⟩
  rw [heq, div_lt_one (by norm_num : (0 : ℝ) < 252)]
  exact_mod_cast hlt

/-- Witness for `years_is_count_over_252`: the 2-row window over `twoPts`. -/
theorem years_is_count_over_252_witness :
    yearsFor (windowRows 0 twoPts).length =
      ((windowRows 0 twoPts).length : ℝ) / 252 ∧
    ((windowRows 0 twoPts).length < 252 →
      yearsFor (windowRows 0 twoPts).length < 1) :=
  years_is_count_over_252 0 twoPts
    (by simp +decide [windowRows, calcRows, calcRowsAux, twoPts])

/-- Modelled from the spec (Period Metrics Calculator, step 4): daily returns
`r[t] = value[t]/value[t-1] - 1` computed **only over the filtered window**,
the first filtered point yielding no return.  Stated separately from the
code-derived definitions so the two can be compared. -/
noncomputable def specReturns : List ℝ → List ℝ
  | x :: y :: t => (y / x - 1) :: specReturns (y :: t)
  | _ => []

/-- The spec's reading of the fund returns entering a window's stddev. -/
noncomputable def specWindowFundReturns (anchor : ℤ) (pts : List Point) : List ℝ :=
  specReturns ((pts.filter (fun p => decide (anchor ≤ p.date))).map Point.nav)

/-- The spec's reading of the benchmark returns entering a window's stddev. -/
noncomputable def specWindowBenchReturns (anchor : ℤ) (pts : List Point) : List ℝ :=
  specReturns ((pts.filter (fun p => decide (anchor ≤ p.date))).map Point.bench)

/-- A three-point series whose NAV doubles between the two points that
straddle the anchor date 1. -/
noncomputable def crossPts : List Point := [⟨0, 100, 1⟩, ⟨1, 200, 1⟩, ⟨2, 200, 1⟩]

/-- The fund-return cells of the `calc_df` rows, `NaN`s dropped, agree with
window-local returns seeded at the previous point's value. -/
theorem validList_calcRowsAux_fund (prev : Point) (ps : List Point) :
    validList ((calcRowsAux prev ps).map Row.fundRet) =
      specReturns (prev.nav :: ps.map Point.nav) := by
  induction ps generalizing prev with
  | nil => rfl
  | cons p ps ih =>
    simp only [calcRowsAux, List.map_cons, validList, List.filterMap_cons,
      id_eq, specReturns]
    rw [← validList, ih]

/-- Benchmark analogue of `validList_calcRowsAux_fund`. -/
theorem validList_calcRowsAux_bench (prev : Point) (ps : List Point) :
    validList ((calcRowsAux prev ps).map Row.benchRet) =
      specReturns (prev.bench :: ps.map Point.bench) := by
  induction ps generalizing prev with
  | nil => rfl
  | cons p ps ih =>
    simp only [calcRowsAux, List.map_cons, validList, List.filterMap_cons,
      id_eq, specReturns]
    rw [← validList, ih]

/-- **C2 (counterexample).** The claim says the returns entering a window's
stddev never include a ratio between an in-window value and a value dated
before the anchor.  The code computes `pct_change` over the whole series
*before* filtering (`src/pages/1_Fund_Analysis.py` lines 200–219), so for the
window anchored at date 1 over `crossPts` the first in-window row carries the
return `200/100 - 1 = 1` from the pre-window point — the window-local returns
would be just `[0]`. -/
theorem window_returns_cross_boundary_cex :
    windowFundReturns 1 crossPts = [1, 0] ∧
    specWindowFundReturns 1 crossPts = [0] ∧
    windowFundReturns 1 crossPts ≠ specWindowFundReturns 1 crossPts := by
  have h1 : windowFundReturns 1 crossPts = [1, 0] := by
    simp +decide [windowFundReturns, windowRows, calcRows, calcRowsAux,
      validList, crossPts]
    norm_num
  have h2 : specWindowFundReturns 1 crossPts = [0] := by
    simp +decide [specWindowFundReturns, specReturns, crossPts]
  refine ⟨h1, h2, ?_⟩
  rw [h1, h2]
  simp

/-- **C2 (amended).** The daily returns are computed by `pct_change` over the
full date-range-filtered series *before* window filtering, so an in-window
row can carry a return seeded at the last pre-window value.  Only when the
anchor retains the entire series (anchor ≤ every date) do the returns
entering the stddev coincide with the window-local computation, in which the
first filtered point contributes no return — independently for fund and
benchmark. -/
theorem window_returns_local_iff_whole_series (anchor : ℤ) (pts : List Point)
    (h : ∀ p ∈ pts, anchor ≤ p.date) :
    windowFundReturns anchor pts = specWindowFundReturns anchor pts ∧
    windowBenchReturns anchor pts = specWindowBenchReturns anchor pts := by
  have hfilter : pts.filter (fun p => decide (anchor ≤ p.date)) = pts :=
    List.filter_eq_self.mpr fun p hp => decide_eq_true (h p hp)
  have hrows : windowRows anchor pts = calcRows pts := by
    rw [windowRows]
    refine List.filter_eq_self.mpr fun r hr => decide_eq_true ?_
    have hd : r.date ∈ (calcRows pts).map Row.date := List.mem_map_of_mem _ hr
    rw [calcRows_map_date] at hd
    obtain ⟨p, hp, hpd⟩ := List.mem_map.mp hd
    exact hpd ▸ h p hp
  cases pts with
  | nil =>
    simp [windowFundReturns, windowBenchReturns, specWindowFundReturns,
      specWindowBenchReturns, windowRows, calcRows, specReturns, validList]
  | cons p ps =>
    constructor
    · rw [windowFundReturns, hrows, specWindowFundReturns, hfilter]
      simp only [calcRows, List.map_cons, validList, List.filterMap_cons, id_eq]
      rw [← validList, validList_calcRowsAux_fund]
    · rw [windowBenchReturns, hrows, specWindowBenchReturns, hfilter]
      simp only [calcRows, List.map_cons, validList, List.filterMap_cons, id_eq]
      rw [← validList, validList_calcRowsAux_bench]

/-- Witness for `window_returns_local_iff_whole_series`: the anchor 0 retains
all of `crossPts`. -/
theorem window_returns_local_witness :
    windowFundReturns 0 crossPts = specWindowFundReturns 0 crossPts ∧
    windowBenchReturns 0 crossPts = specWindowBenchReturns 0 crossPts := by
  refine window_returns_local_iff_whole_series 0 crossPts ?_
  intro p hp
  simp only [crossPts, List.mem_cons, List.not_mem_nil, or_false] at hp
  rcases hp with rfl | rfl | rfl <;> decide

/-- **C5 (confirmed).** A window's Period Metric Set is the all-`N/A` row
exactly when fewer than 2 series points fall on or after the anchor date;
with at least 2 points the numeric branch is taken. -/
theorem window_na_iff_fewer_than_two (isYTD : Bool) (anchor : ℤ)
    (pts : List Point) :
    metricsForWindow isYTD anchor pts = none ↔
      (pts.filter (fun p => decide (anchor ≤ p.date))).length < 2 := by
  rw [metricsForWindow, windowRows_length]
  by_cases h : (pts.filter (fun p => decide (anchor ≤ p.date))).length < 2
  · simp [h]
  · simp [h]

/-- A four-point series: NAV doubles every day (all fund returns equal, so
fund volatility is 0) while the benchmark moves 1 → 9 → 99 → 99 (returns 8,
10, 0, sample variance 28, annualized volatility `√28·√252·100 = 8400`). -/
noncomputable def mixPts : List Point :=
  [⟨0, 1, 1⟩, ⟨1, 2, 9⟩, ⟨2, 4, 99⟩, ⟨3, 8, 99⟩]

theorem sqrt28_mul_sqrt252 : Real.sqrt 28 * Real.sqrt 252 = 84 := by
  rw [← Real.sqrt_mul (by norm_num : (0 : ℝ) ≤ 28)]
  rw [show (28 : ℝ) * 252 = 84 ^ 2 by norm_num]
  exact Real.sqrt_sq (by norm_num)

theorem mixPts_fund_rets : validList ((windowRows 0 mixPts).map Row.fundRet) = [1, 1, 1] := by
  simp +decide [windowRows, calcRows, calcRowsAux, validList, mixPts]
  norm_num

theorem mixPts_bench_rets : validList ((windowRows 0 mixPts).map Row.benchRet) = [8, 10, 0] := by
  simp +decide [windowRows, calcRows, calcRowsAux, validList, mixPts]
  norm_num

theorem mixPts_fund_vol : volOf Row.fundRet 0 mixPts = some 0 := by
  rw [volOf, mixPts_fund_rets, sampleStd, if_neg (by norm_num)]
  rw [show sampleVar [1, 1, 1] = 0 by norm_num [sampleVar, listMean]]
  simp

theorem mixPts_bench_vol : volOf Row.benchRet 0 mixPts = some 8400 := by
  rw [volOf, mixPts_bench_rets, sampleStd, if_neg (by norm_num)]
  rw [show sampleVar [8, 10, 0] = 28 by norm_num [sampleVar, listMean]]
  rw [Option.map_some', sqrt28_mul_sqrt252]
  norm_num

theorem mixPts_navs : (windowRows 0 mixPts).map Row.nav = [1, 2, 4, 8] := by
  simp +decide [windowRows, calcRows, calcRowsAux, mixPts]

theorem mixPts_benchs : (windowRows 0 mixPts).map Row.bench = [1, 9, 99, 99] := by
  simp +decide [windowRows, calcRows, calcRowsAux, mixPts]

theorem mixPts_fund_perf : perfOf true Row.nav 0 mixPts = 700 := by
  rw [perfOf, mixPts_navs]
  norm_num [List.headI, List.getLastI]

theorem mixPts_bench_perf : perfOf true Row.bench 0 mixPts = 9800 := by
  rw [perfOf, mixPts_benchs]
  norm_num [List.headI, List.getLastI]

theorem mixPts_tracking : trackingErrorOf 0 mixPts = some (0 - 8400) := by
  rw [trackingErrorOf, mixPts_fund_vol, mixPts_bench_vol]

theorem mixPts_sharpe : sharpeOf 0 mixPts = some 0 := by
  rw [sharpeOf, mixPts_fund_vol]
  norm_num

/-- Full evaluation of the YTD-style window over `mixPts`. -/
theorem metrics_mixPts_eval :
    metricsForWindow true 0 mixPts =
      some ⟨some 0, some 8400, some 700, some 9800, some (0 - 8400), some 0⟩ := by
  have hlen : ¬ (windowRows 0 mixPts).length < 2 := by
    simp +decide [windowRows, calcRows, calcRowsAux, mixPts]
  rw [metricsForWindow, if_neg hlen, mixPts_fund_vol, mixPts_bench_vol,
    mixPts_fund_perf, mixPts_bench_perf, mixPts_tracking, mixPts_sharpe]

/-- A `filterMap` never lengthens a list. -/
theorem validList_length_le (l : List (Option ℝ)) :
    (validList l).length ≤ l.length := by
  induction l with
  | nil => simp [validList]
  | cons o t ih =>
    cases o <;> simp [validList, List.filterMap_cons] at ih ⊢ <;> omega

/-- **C4 (counterexample).** The claim says every field of a produced Period
Metric Set is a finite number or the `N/A` sentinel, never `NaN`.  On a
two-point series the YTD window keeps both rows (so the numeric branch runs),
but the `pct_change` column holds only one valid return, `Series.std()` of a
single observation is `NaN` (ddof = 1), and the fund/bench volatility and
tracking-error cells of the produced row are `NaN` (inner `none`) — neither
finite nor the `N/A` sentinel. -/
theorem metrics_nan_vol_cex :
    metricsForWindow true 0 twoPts =
      some ⟨none, none, some 100, some 100, none, some 0⟩ := by
  have hfr : validList ((windowRows 0 twoPts).map Row.fundRet) = [1] := by
    simp +decide [windowRows, calcRows, calcRowsAux, validList, twoPts]
    norm_num
  have hbr : validList ((windowRows 0 twoPts).map Row.benchRet) = [1] := by
    simp +decide [windowRows, calcRows, calcRowsAux, validList, twoPts]
    norm_num
  have hvf : volOf Row.fundRet 0 twoPts = none := by
    rw [volOf, hfr, sampleStd, if_pos (by norm_num)]
    rfl
  have hvb : volOf Row.benchRet 0 twoPts = none := by
    rw [volOf, hbr, sampleStd, if_pos (by norm_num)]
    rfl
  have hnav : (windowRows 0 twoPts).map Row.nav = [1, 2] := by
    simp +decide [windowRows, calcRows, calcRowsAux, twoPts]
  have hben : (windowRows 0 twoPts).map Row.bench = [1, 2] := by
    simp +decide [windowRows, calcRows, calcRowsAux, twoPts]
  have hpf : perfOf true Row.nav 0 twoPts = 100 := by
    rw [perfOf, hnav]
    norm_num [List.headI, List.getLastI]
  have hpb : perfOf true Row.bench 0 twoPts = 100 := by
    rw [perfOf, hben]
    norm_num [List.headI, List.getLastI]
  have htr : trackingErrorOf 0 twoPts = none := by
    rw [trackingErrorOf, hvf, hvb]
  have hsh : sharpeOf 0 twoPts = some 0 := by
    rw [sharpeOf, hvf]
  have hlen : ¬ (windowRows 0 twoPts).length < 2 := by
    simp +decide [windowRows, calcRows, calcRowsAux, twoPts]
  rw [metricsForWindow, if_neg hlen, hvf, hvb, hpf, hpb, htr, hsh]

/-- **C4 (amended).** Every field of a produced Period Metric Set is a finite
number or the `N/A` sentinel **provided** the window retains at least two
valid (non-`NaN`) daily returns for both the fund and the benchmark; without
that proviso the volatility and tracking-error cells can be float `NaN` (see
the counterexample).  The zero fallbacks (non-positive basis, non-positive
volatility) still yield the finite number 0. -/
theorem metrics_finite_of_enough_returns (isYTD : Bool) (anchor : ℤ)
    (pts : List Point)
    (hf : 2 ≤ (windowFundReturns anchor pts).length)
    (hb : 2 ≤ (windowBenchReturns anchor pts).length) :
    metricsForWindow isYTD anchor pts ≠ none ∧
    (metricsForWindow isYTD anchor pts).bind PeriodMetrics.fundVol ≠ none ∧
    (metricsForWindow isYTD anchor pts).bind PeriodMetrics.benchVol ≠ none ∧
    (metricsForWindow isYTD anchor pts).bind PeriodMetrics.fundPerf ≠ none ∧
    (metricsForWindow isYTD anchor pts).bind PeriodMetrics.benchPerf ≠ none ∧
    (metricsForWindow isYTD anchor pts).bind PeriodMetrics.trackingError ≠ none ∧
    (metricsForWindow isYTD anchor pts).bind PeriodMetrics.sharpe ≠ none := by
  rw [windowFundReturns] at hf
  rw [windowBenchReturns] at hb
  have hrows : 2 ≤ (windowRows anchor pts).length := by
    calc 2 ≤ (validList ((windowRows anchor pts).map Row.fundRet)).length := hf
    _ ≤ ((windowRows anchor pts).map Row.fundRet).length := validList_length_le _
    _ = (windowRows anchor pts).length := List.length_map _ _
  obtain ⟨a, ha⟩ : ∃ x, volOf Row.fundRet anchor pts = some x := by
    rw [volOf, sampleStd, if_neg (not_lt.mpr hf)]
    exact ⟨_, rfl⟩
  obtain ⟨b, hbv⟩ : ∃ x, volOf Row.benchRet anchor pts = some x := by
    rw [volOf, sampleStd, if_neg (not_lt.mpr hb)]
    exact ⟨_, rfl⟩
  rw [metricsForWindow, if_neg (not_lt.mpr hrows)]
  refine ⟨by simp, ?_, ?_, by simp, by simp, ?_, ?_⟩
  · simp [ha]
  · simp [hbv]
  · have : trackingErrorOf anchor pts = some (a - b) := by
      rw [trackingErrorOf, ha, hbv]
    simp [this]
  · have hsh : sharpeOf anchor pts ≠ none := by
      rw [sharpeOf, ha]
      show (if 0 < a then some (annualizedFundPerf anchor pts / 100 / (a / 100))
        else some 0) ≠ none
      split_ifs <;> simp
    simp [hsh]

/-- Witness for `metrics_finite_of_enough_returns`: the window over `mixPts`
has three valid returns on each side. -/
theorem metrics_finite_witness :
    metricsForWindow true 0 mixPts ≠ none ∧
    (metricsForWindow true 0 mixPts).bind PeriodMetrics.fundVol ≠ none ∧
    (metricsForWindow true 0 mixPts).bind PeriodMetrics.benchVol ≠ none ∧
    (metricsForWindow true 0 mixPts).bind PeriodMetrics.fundPerf ≠ none ∧
    (metricsForWindow true 0 mixPts).bind PeriodMetrics.benchPerf ≠ none ∧
    (metricsForWindow true 0 mixPts).bind PeriodMetrics.trackingError ≠ none ∧
    (metricsForWindow true 0 mixPts).bind PeriodMetrics.sharpe ≠ none := by
  refine metrics_finite_of_enough_returns true 0 mixPts ?_ ?_
  · rw [windowFundReturns, mixPts_fund_rets]
    norm_num
  · rw [windowBenchReturns, mixPts_bench_rets]
    norm_num

/-- **C8 (confirmed).** For every window computed numerically, the tracking
error is exactly fund volatility minus benchmark volatility — a signed float
difference (negative whenever the benchmark is more volatile, as the witness
shows), not the standard deviation of excess returns. -/
theorem tracking_error_is_vol_diff (isYTD : Bool) (anchor : ℤ)
    (pts : List Point) (m : PeriodMetrics) (a b : ℝ)
    (hm : metricsForWindow isYTD anchor pts = some m)
    (ha : m.fundVol = some a) (hb : m.benchVol = some b) :
    m.trackingError = some (a - b) := by
  rw [metricsForWindow] at hm
  split at hm
  · exact absurd hm (by simp)
  · injection hm with hm
    subst hm
    replace ha : volOf Row.fundRet anchor pts = some a := ha
    replace hb : volOf Row.benchRet anchor pts = some b := hb
    show trackingErrorOf anchor pts = some (a - b)
    rw [trackingErrorOf, ha, hb]

/-- Witness for `tracking_error_is_vol_diff`: over `mixPts` the fund
volatility is 0, the benchmark volatility 8400, and the tracking error the
negative difference `0 - 8400`. -/
theorem tracking_error_is_vol_diff_witness :
    (⟨some 0, some 8400, some 700, some 9800, some (0 - 8400), some 0⟩
        : PeriodMetrics).trackingError = some ((0 : ℝ) - 8400) :=
  tracking_error_is_vol_diff true 0 mixPts _ 0 8400 metrics_mixPts_eval rfl rfl

/-- **C6 (confirmed).** The Sharpe ratio of every numerically computed window
is built from the **annualized** fund return (`annualizedFundPerf`, the
step-6 "otherwise" branch — note it takes no YTD flag, so the total-return
window also uses the annualized formula) divided by fund volatility, both
first divided by 100; and whenever fund volatility is not strictly positive
(including the float-`NaN` case, which fails Python's `fund_vol > 0` test)
the Sharpe ratio is exactly 0, regardless of any performance value. -/
theorem sharpe_spec (isYTD : Bool) (anchor : ℤ) (pts : List Point)
    (m : PeriodMetrics) (hm : metricsForWindow isYTD anchor pts = some m) :
    (∀ v : ℝ, m.fundVol = some v → 0 < v →
      m.sharpe = some ((annualizedFundPerf anchor pts / 100) / (v / 100))) ∧
    (∀ v : ℝ, m.fundVol = some v → v ≤ 0 → m.sharpe = some 0) ∧
    (m.fundVol = none → m.sharpe = some 0) := by
  rw [metricsForWindow] at hm
  split at hm
  · exact absurd hm (by simp)
  · injection hm with hm
    subst hm
    refine ⟨?_, ?_, ?_⟩
    · intro v hv hpos
      replace hv : volOf Row.fundRet anchor pts = some v := hv
      show sharpeOf anchor pts = _
      rw [sharpeOf, hv]
      show (if 0 < v then some (annualizedFundPerf anchor pts / 100 / (v / 100))
        else some 0) = _
      rw [if_pos hpos]
    · intro v hv hle
      replace hv : volOf Row.fundRet anchor pts = some v := hv
      show sharpeOf anchor pts = _
      rw [sharpeOf, hv]
      show (if 0 < v then some (annualizedFundPerf anchor pts / 100 / (v / 100))
        else some 0) = some 0
      rw [if_neg (not_lt.mpr hle)]
    · intro hv
      replace hv : volOf Row.fundRet anchor pts = none := hv
      show sharpeOf anchor pts = _
      rw [sharpeOf, hv]

/-- Witness for `sharpe_spec`: over `mixPts` the fund volatility is exactly
0 (constant fund returns), so the Sharpe ratio is exactly 0 even though the
fund performance is large. -/
theorem sharpe_spec_witness :
    (⟨some 0, some 8400, some 700, some 9800, some (0 - 8400), some 0⟩
        : PeriodMetrics).sharpe = some 0 :=
  (sharpe_spec true 0 mixPts _ metrics_mixPts_eval).2.1 0 rfl le_rfl

/-! ## Return series builder: rebasing
(`src/pages/1_Fund_Analysis.py` lines 169–190) -/

/-- `pct_change` past the first row: `value[t]/value[t-1] - 1`. -/
noncomputable def pctChangeAux (prev : ℝ) : List ℝ → List (Option ℝ)
  | [] => []
  | x :: xs => some (x / prev - 1) :: pctChangeAux x xs

/-- pandas `pct_change()` of a value column: `NaN` (`none`) first, then the
successive simple returns. -/
noncomputable def pctChange : List ℝ → List (Option ℝ)
  | [] => []
  | x :: xs => none :: pctChangeAux x xs

/-- `+ 1` on a float cell: `NaN + 1 = NaN`. -/
noncomputable def plusOne : Option ℝ → Option ℝ
  | none => none
  | some r => some (r + 1)

/-- pandas `cumprod()` with its default `skipna=True`: a `NaN` cell stays
`NaN` and does not enter the running product. -/
noncomputable def cumprodSkipNa (acc : ℝ) : List (Option ℝ) → List (Option ℝ)
  | [] => []
  | none :: xs => none :: cumprodSkipNa acc xs
  | some x :: xs => some (acc * x) :: cumprodSkipNa (acc * x) xs

/-- One column of the "Recompute from Startdate" rebasing
(`src/pages/1_Fund_Analysis.py` lines 176–188), for the column selected by
`value` (`Point.nav` or `Point.bench`): replace the column by
`pct_change() + 1`, override every row whose date equals the selected start
date with the base 100, then take the cumulative product. -/
noncomputable def rebaseColumn (value : Point → ℝ) (minDate : ℤ)
    (pts : List Point) : List (Option ℝ) :=
  cumprodSkipNa 1
    (List.zipWith (fun p o => if p.date = minDate then some 100 else o) pts
      ((pctChange (pts.map value)).map plusOne))

/-- The numeric entries of the rebased column. -/
noncomputable def rebasedVals (value : Point → ℝ) (minDate : ℤ)
    (pts : List Point) : List ℝ :=
  validList (rebaseColumn value minDate pts)

/-- Positionally aligned adjacent-ratio agreement:
`l[t]/l[t-1] = r[t]/r[t-1]` for every consecutive pair. -/
def SameRatios : List ℝ → List ℝ → Prop
  | a :: b :: t, x :: y :: u => b / a = y / x ∧ SameRatios (b :: t) (y :: u)
  | _, _ => True

/-- Running product of a list, seeded at `acc`. -/
noncomputable def scanMul (acc : ℝ) : List ℝ → List ℝ
  | [] => []
  | x :: xs => (acc * x) :: scanMul (acc * x) xs

/-- The `pct_change + 1` values past the first row. -/
noncomputable def ratioP1 (prev : ℝ) : List ℝ → List ℝ
  | [] => []
  | x :: xs => (x / prev - 1 + 1) :: ratioP1 x xs

theorem pctChangeAux_map_plusOne (prev : ℝ) (l : List ℝ) :
    (pctChangeAux prev l).map plusOne = (ratioP1 prev l).map some := by
  induction l generalizing prev with
  | nil => rfl
  | cons x xs ih => simp [pctChangeAux, ratioP1, plusOne, ih]

theorem ratioP1_length (prev : ℝ) (l : List ℝ) :
    (ratioP1 prev l).length = l.length := by
  induction l generalizing prev with
  | nil => rfl
  | cons x xs ih => simp [ratioP1, ih]

theorem cumprodSkipNa_map_some (l : List ℝ) : ∀ acc : ℝ,
    cumprodSkipNa acc (l.map some) = (scanMul acc l).map some := by
  induction l with
  | nil => intro acc; rfl
  | cons x xs ih => intro acc; simp [cumprodSkipNa, scanMul, ih]

/-- The date-equality override leaves a column unchanged when no date
matches. -/
theorem zipWith_override_of_ne (minDate : ℤ) :
    ∀ (ps : List Point) (col : List (Option ℝ)), ps.length = col.length →
      (∀ p ∈ ps, p.date ≠ minDate) →
      List.zipWith (fun p o => if p.date = minDate then some (100 : ℝ) else o)
        ps col = col
  | [], [], _, _ => rfl
  | [], _ :: _, hlen, _ => by simp at hlen
  | _ :: _, [], hlen, _ => by simp at hlen
  | p :: ps, o :: col, hlen, h => by
    simp only [List.zipWith_cons_cons]
    rw [if_neg (h p (List.mem_cons_self _ _))]
    congr 1
    exact zipWith_override_of_ne minDate ps col (by simpa using hlen)
      (fun q hq => h q (List.mem_cons_of_mem _ hq))

/-- Compounding the `pct_change + 1` ratios from any non-zero seed reproduces
the raw column's adjacent ratios. -/
theorem sameRatios_scanMul (l : List ℝ) : ∀ prev v : ℝ, 0 < prev → v ≠ 0 →
    (∀ x ∈ l, 0 < x) →
    SameRatios (v :: scanMul v (ratioP1 prev l)) (prev :: l) := by
  induction l with
  | nil => intro prev v _ _ _; trivial
  | cons x xs ih =>
    intro prev v hprev hv hl
    have hx : 0 < x := hl x (List.mem_cons_self _ _)
    rw [ratioP1, scanMul]
    show (v * (x / prev - 1 + 1)) / v = x / prev ∧ _
    constructor
    · rw [show x / prev - 1 + 1 = x / prev by ring]
      exact mul_div_cancel_left₀ _ hv
    · exact ih x (v * (x / prev - 1 + 1)) hx
        (by
          have : x / prev - 1 + 1 = x / prev := by ring
          rw [this]
          exact mul_ne_zero hv (ne_of_gt (div_pos hx hprev)))
        (fun y hy => hl y (List.mem_cons_of_mem _ hy))

/-- **C3 (confirmed).** For a non-empty filtered series whose first retained
date is the selected start date (the date filter is `>= min_date`, dates are
unique and sorted, so a retained start date is the first row), with positive
raw values: the rebased column is all-numeric, its value on the start date is
exactly 100 regardless of the raw magnitude there, and every adjacent ratio
of the rebased column equals the corresponding adjacent ratio of the raw
column.  Instantiating `value` at `Point.nav` and `Point.bench` gives the
fund and benchmark columns. -/
theorem rebase_spec (value : Point → ℝ) (minDate : ℤ) (p0 : Point)
    (rest : List Point)
    (hdate : p0.date = minDate)
    (hrest : ∀ p ∈ rest, p.date ≠ minDate)
    (hpos : ∀ p ∈ p0 :: rest, 0 < value p) :
    rebaseColumn value minDate (p0 :: rest) =
      (rebasedVals value minDate (p0 :: rest)).map some ∧
    (rebasedVals value minDate (p0 :: rest)).headI = 100 ∧
    SameRatios (rebasedVals value minDate (p0 :: rest))
      ((p0 :: rest).map value) := by
  have hcol : (pctChange ((p0 :: rest).map value)).map plusOne
      = none :: (ratioP1 (value p0) (rest.map value)).map some := by
    simp [pctChange, pctChangeAux_map_plusOne, plusOne]
  have hover : List.zipWith
      (fun p o => if p.date = minDate then some (100 : ℝ) else o) (p0 :: rest)
      ((pctChange ((p0 :: rest).map value)).map plusOne)
      = some 100 :: (ratioP1 (value p0) (rest.map value)).map some := by
    rw [hcol, List.zipWith_cons_cons, if_pos hdate]
    congr 1
    exact zipWith_override_of_ne minDate rest _
      (by simp [ratioP1_length]) hrest
  have hre : rebaseColumn value minDate (p0 :: rest)
      = (scanMul 1 (100 :: ratioP1 (value p0) (rest.map value))).map some := by
    rw [rebaseColumn, hover,
      show (some (100 : ℝ) :: (ratioP1 (value p0) (rest.map value)).map some)
        = ((100 :: ratioP1 (value p0) (rest.map value)).map some) by simp,
      cumprodSkipNa_map_some]
  have hvals : rebasedVals value minDate (p0 :: rest)
      = scanMul 1 (100 :: ratioP1 (value p0) (rest.map value)) := by
    rw [rebasedVals, hre, validList, List.filterMap_map]
    simp
  have h100 : scanMul 1 (100 :: ratioP1 (value p0) (rest.map value))
      = 100 :: scanMul 100 (ratioP1 (value p0) (rest.map value)) := by
    rw [scanMul, one_mul]
  refine ⟨by rw [hre, hvals], by rw [hvals, h100]; rfl, ?_⟩
  rw [hvals, h100, List.map_cons]
  exact sameRatios_scanMul (rest.map value) (value p0) 100
    (hpos p0 (List.mem_cons_self _ _)) (by norm_num)
    (fun y hy => by
      obtain ⟨p, hp, rfl⟩ := List.mem_map.mp hy
      exact hpos p (List.mem_cons_of_mem _ hp))

/-- A three-point series for the rebasing witness. -/
noncomputable def rebasePts : List Point := [⟨0, 2, 5⟩, ⟨1, 4, 10⟩, ⟨2, 8, 40⟩]

/-- Witness for `rebase_spec`: the NAV column of `rebasePts`, rebased from
its first date. -/
theorem rebase_spec_witness :
    rebaseColumn Point.nav 0 rebasePts =
      (rebasedVals Point.nav 0 rebasePts).map some ∧
    (rebasedVals Point.nav 0 rebasePts).headI = 100 ∧
    SameRatios (rebasedVals Point.nav 0 rebasePts)
      (rebasePts.map Point.nav) := by
  refine rebase_spec Point.nav 0 ⟨0, 2, 5⟩ [⟨1, 4, 10⟩, ⟨2, 8, 40⟩] rfl ?_ ?_
  · intro p hp
    simp only [List.mem_cons, List.not_mem_nil, or_false] at hp
    rcases hp with rfl | rfl <;> decide
  · intro p hp
    simp only [List.mem_cons, List.not_mem_nil, or_false] at hp
    rcases hp with rfl | rfl | rfl <;> norm_num

end FundDash

namespace FundDash

/-- **C7 (counterexample).** The claim asserts that the `"B"` rule wins for
every string containing the letter B, i.e. that suffixes are checked in the
order B, M, K.  The code (`src/pages/1_Fund_Analysis.py` lines 19–33) checks
`'M'` first: on the input `"3MB"`, whose upper-cased form contains `'B'`, the
result is `3 * 1e6`, not the `3 * 1e9` the claim requires. -/
theorem parse_aum_M_beats_B_cex :
    parse_aum "3MB" = some 3000000 ∧ (3000000 : ℚ) ≠ 3000000000 := by
  constructor
  · simp +decide [parse_aum, parseDecimalChars, splitDots, stripNonDigitDot,
      trimChars, upChar, digitsToNat, isSpaceChar]
    norm_num
  · norm_num

/-- **C7 (amended).** `parse_aum` checks the magnitude suffixes in the order
M, then B, then K: for every non-empty, non-"N/A" input whose trimmed
upper-cased form contains `'B'` but not `'M'`, the result is the digit/dot
extraction parsed as a decimal and multiplied by `1e9`. -/
theorem parse_aum_B_rule (s : String) (q : ℚ)
    (hna : s ≠ "N/A") (hne : s ≠ "")
    (hM : ((trimChars s.toList).map upChar).contains 'M' = false)
    (hB : ((trimChars s.toList).map upChar).contains 'B' = true)
    (hn : stripNonDigitDot ((trimChars s.toList).map upChar) ≠ [])
    (hq : parseDecimalChars (stripNonDigitDot ((trimChars s.toList).map upChar))
      = some q) :
    parse_aum s = some (q * 1000000000) := by
  unfold parse_aum
  rw [if_neg (by simp [hna, hne])]
  simp only [hM, hB, Bool.false_eq_true, if_false, if_true]
  rw [if_pos hn, hq]
  rfl

/-- Witness for `parse_aum_B_rule`: the input `"2B"` satisfies every
hypothesis and parses to `2 * 1e9`. -/
theorem parse_aum_B_rule_witness : parse_aum "2B" = some (2 * 1000000000) := by
  have h := parse_aum_B_rule "2B" 2 (by decide) (by decide) (by decide)
    (by decide) (by decide)
  exact h (by simp +decide [parseDecimalChars, splitDots, stripNonDigitDot,
    trimChars, upChar, digitsToNat, isSpaceChar])

/-- **C9 (confirmed).** `calculate_revenue` returns `None` exactly when one of
the two parses fails, and otherwise the product of the parsed AUM and the
parsed fee fraction; in particular `revenue("1.5M", "1%") = 15000` and
`revenue("N/A", "1%")` is not available.  The Lean model is a total function,
mirroring that the Python function catches every parse failure and never
raises to its caller. -/
theorem calculate_revenue_spec :
    (∀ a f : String,
      (calculate_revenue a f = none ↔ (parse_aum a = none ∨ parse_fees f = none)) ∧
      (∀ x y : ℚ, parse_aum a = some x → parse_fees f = some y →
        calculate_revenue a f = some (x * y))) ∧
    calculate_revenue "1.5M" "1%" = some 15000 ∧
    calculate_revenue "N/A" "1%" = none := by
  refine ⟨fun a f => ⟨?_, ?_⟩, ?_, ?_⟩
  · unfold calculate_revenue
    rcases parse_aum a with _ | x <;> rcases parse_fees f with _ | y <;> simp
  · intro x y hx hy
    unfold calculate_revenue
    rw [hx, hy]
  · have hx : parse_aum "1.5M" = some 1500000 := by
      simp +decide [parse_aum, parseDecimalChars, splitDots, stripNonDigitDot,
        trimChars, upChar, digitsToNat, isSpaceChar]
      norm_num
    have hy : parse_fees "1%" = some (1 / 100) := by
      simp +decide [parse_fees, parseDecimalChars, splitDots, trimChars,
        digitsToNat, isSpaceChar]
    unfold calculate_revenue
    rw [hx, hy]
    norm_num
  · rfl

/-- Witness for `calculate_revenue_spec`: its product clause applied at the
concrete parses of `"1.5M"` and `"1%"`. -/
theorem calculate_revenue_spec_witness :
    calculate_revenue "1.5M" "1%" = some (1500000 * (1 / 100)) := by
  refine (calculate_revenue_spec.1 "1.5M" "1%").2 1500000 (1 / 100) ?_ ?_
  · simp +decide [parse_aum, parseDecimalChars, splitDots, stripNonDigitDot,
      trimChars, upChar, digitsToNat, isSpaceChar]
    norm_num
  · simp +decide [parse_fees, parseDecimalChars, splitDots, trimChars,
      digitsToNat, isSpaceChar]

/-- **C10 (confirmed).** When every bonus amount in the allocation is 0, the
count of entries with a strictly positive bonus is 0 and both bonus-weighted
averages (E Score and age) evaluate to 0: the zero total-bonus denominator is
caught by the `if total > 0` guard, so no division occurs. -/
theorem allocation_all_zero_spec (l : List AllocEntry)
    (h : ∀ e ∈ l, e.bonus = 0) :
    num_managers_with_bonus l = 0 ∧
    weighted_avg_esg l = 0 ∧ weighted_avg_age l = 0 := by
  refine ⟨?_, weightedAvg_eq_zero_of_all_zero _ l h,
    weightedAvg_eq_zero_of_all_zero _ l h⟩
  rw [num_managers_with_bonus, List.countP_eq_zero]
  intro e he
  simp [h e he]

/-- Witness for `allocation_all_zero_spec` on a concrete two-entry allocation
with all bonuses zero. -/
theorem allocation_all_zero_spec_witness :
    num_managers_with_bonus [⟨0, some 12, some 45⟩, ⟨0, none, some 50⟩] = 0 ∧
    weighted_avg_esg [⟨0, some 12, some 45⟩, ⟨0, none, some 50⟩] = 0 ∧
    weighted_avg_age [⟨0, some 12, some 45⟩, ⟨0, none, some 50⟩] = 0 := by
  refine allocation_all_zero_spec _ ?_
  intro e he
  simp only [List.mem_cons, List.not_mem_nil, or_false] at he
  rcases he with rfl | rfl <;> rfl

end FundDash
